import Mathlib

/-!
Shallow embedding of the AutoTool test-execution controller
(`testController`: `parseTestOutput`, `runTest`, `listTests`) and the
properties claimed about it.

Strings are modelled at the `List Char` level where line/regex processing
matters; JavaScript's ASCII case folding is modelled with `Char.toLower`.
-/

namespace AutoTool

/-- JS `\s` whitespace class, restricted to the ASCII range (the inputs at
hand contain no Unicode spaces). -/
def isSpaceChar (c : Char) : Bool :=
  c = ' ' || c = '\t' || c = '\n' || c = '\r' || c = '\x0b' || c = '\x0c'

/-- Does the first list occur at the head of the second? -/
def leadsWith {α : Type} [DecidableEq α] : List α → List α → Bool
  | [], _ => true
  | _ :: _, [] => false
  | a :: as, b :: bs => if a = b then leadsWith as bs else false

/-- Does `tok` occur contiguously anywhere inside `l`? -/
def hasInfix {α : Type} [DecidableEq α] (tok : List α) : List α → Bool
  | [] => leadsWith tok []
  | b :: bs => leadsWith tok (b :: bs) || hasInfix tok bs

/-- Consume an exact (case-sensitive) literal. -/
def stripLit : List Char → List Char → Option (List Char)
  | [], l => some l
  | _ :: _, [] => none
  | p :: ps, c :: cs => if c = p then stripLit ps cs else none

/-- Consume a literal up to ASCII case. -/
def stripLitCI : List Char → List Char → Option (List Char)
  | [], l => some l
  | _ :: _, [] => none
  | p :: ps, c :: cs => if c.toLower = p.toLower then stripLitCI ps cs else none

/-- Consume `\s+`: at least one whitespace character, then the maximal run.
In the exit-code marker regex every `\s+` is followed by a character that is
never whitespace, so maximal munch coincides with backtracking semantics. -/
def stripWs1 : List Char → Option (List Char)
  | [] => none
  | c :: cs => if isSpaceChar c then some (cs.dropWhile isSpaceChar) else none

/-- Consume `(\d+)`: the maximal nonempty run of digits, returned as the
captured number (the regex group is handed to `parseInt(·, 10)`). In the
marker regex `\d+` is followed by `\s+`, never by a digit, so maximal munch
again coincides with backtracking semantics. -/
def stripDigits1 (l : List Char) : Option (Nat × List Char) :=
  let ds := l.takeWhile Char.isDigit
  if ds.isEmpty then none
  else some (ds.foldl (fun acc c => 10 * acc + (c.toNat - 48)) 0,
             l.dropWhile Char.isDigit)

/-- One attempt of the regex `===\s+Exit\s+code:\s+(\d+)\s+===` (flag `i`)
anchored at the head of `l`; returns the captured number on success. -/
def matchMarkerAt (l : List Char) : Option Nat := do
  let l1 ← stripLit "===".toList l
  let l2 ← stripWs1 l1
  let l3 ← stripLitCI "exit".toList l2
  let l4 ← stripWs1 l3
  let l5 ← stripLitCI "code:".toList l4
  let l6 ← stripWs1 l5
  let (n, l7) ← stripDigits1 l6
  let l8 ← stripWs1 l7
  let _ ← stripLit "===".toList l8
  pure n

/-- JS `String.prototype.match` with a non-global regex: the leftmost
position at which the marker pattern matches, its captured number. -/
def findMarker : List Char → Option Nat
  | [] => none
  | c :: cs =>
    match matchMarkerAt (c :: cs) with
    | some n => some n
    | none => findMarker cs

/-- JS `output.split('\n')`. -/
def splitLines : List Char → List (List Char)
  | [] => [[]]
  | c :: cs =>
    if c = '\n' then [] :: splitLines cs
    else
      match splitLines cs with
      | [] => [[c]]
      | h :: t => (c :: h) :: t

/-- The six alternatives of `/error|exception|failed|fatal|warning|denied/i`. -/
def errorTokens : List (List Char) :=
  [ "error".toList, "exception".toList, "failed".toList,
    "fatal".toList, "warning".toList, "denied".toList ]

/-- Does a line match the error-token regex (case-insensitively contain one
of the six tokens)? -/
def lineMatches (line : List Char) : Bool :=
  errorTokens.any (fun tok => hasInfix tok (line.map Char.toLower))

/-- The classifier verdict structure returned by `parseTestOutput`. -/
structure TestResults where
  success : Bool
  exitCode : Option Nat
  errorCount : Nat
  errors : List (List Char)
  fullOutput : List Char
  deriving Repr, DecidableEq

/-- `parseTestOutput` from the controller: extract the exit-code marker,
collect the lines matching the error-token regex, and call the run a
success exactly when the exit code is `0` and no line matched. -/
def parseTestOutput (output : List Char) : TestResults :=
  let exitCode := findMarker output
  let errorLines := (splitLines output).filter lineMatches
  { success := (exitCode == some 0) && errorLines.isEmpty,
    exitCode := exitCode,
    errorCount := errorLines.length,
    errors := errorLines,
    fullOutput := output }

/-- ASCII lowering of a string, the behavior of `toLowerCase` on the ASCII
identifiers this code handles. -/
def lowerStr (s : String) : String := ⟨s.data.map Char.toLower⟩

/-- Substring test, the behavior of JS `String.prototype.includes`. -/
def containsStr (s tok : String) : Bool := hasInfix tok.toList s.toList

/-- JS truthiness for an optional string: `undefined`/`null` and the empty
string are falsy. -/
def truthy : Option String → Option String
  | none => none
  | some s => if s = "" then none else some s

/-- The static OS→image table (`osMap` in `runTest`), keyed by the
lowercased identifier. -/
def osMap (os : String) : Option String :=
  if os = "windows-2016" then some "mcr.microsoft.com/windows/servercore:ltsc2016"
  else if os = "windows-2019" then some "mcr.microsoft.com/windows/servercore:ltsc2019"
  else if os = "windows-2022" then some "mcr.microsoft.com/windows/servercore:ltsc2022"
  else if os = "ubuntu-20.04" then some "ubuntu:20.04"
  else if os = "ubuntu-22.04" then some "ubuntu:22.04"
  else if os = "centos-7" then some "centos:7"
  else if os = "centos-8" then some "quay.io/centos/centos:stream8"
  else if os = "debian-10" then some "debian:10"
  else if os = "debian-11" then some "debian:11"
  else if os = "rhel-8" then some "registry.access.redhat.com/ubi8/ubi"
  else if os = "rhel-9" then some "registry.access.redhat.com/ubi9/ubi"
  else none

/-- Image resolution as performed inside `runTest`: a truthy explicit
`customImage` wins; otherwise exact table lookup on the lowercased
identifier; otherwise substring family fallback in source order
(windows, ubuntu, centos, debian, rhel); otherwise the global default. -/
def resolveImage (operatingSystem : String) (customImage : Option String) : String :=
  match truthy customImage with
  | some img => img
  | none =>
    let osLower := lowerStr operatingSystem
    match osMap osLower with
    | some img => img
    | none =>
      if containsStr osLower "windows" then "mcr.microsoft.com/windows/servercore:ltsc2022"
      else if containsStr osLower "ubuntu" then "ubuntu:22.04"
      else if containsStr osLower "centos" then "quay.io/centos/centos:stream8"
      else if containsStr osLower "debian" then "debian:11"
      else if containsStr osLower "rhel" then "registry.access.redhat.com/ubi8/ubi"
      else "ubuntu:22.04"

/-- `substring(0, n)` on an ASCII identifier. -/
def takeStr (s : String) (n : Nat) : String := ⟨s.data.take n⟩

/-- The per-run metadata object (`testMetadata` in `runTest`), threaded and
rewritten to `metadata.json` over the run's lifecycle. -/
structure TestMetadata where
  id : String
  scriptId : Option String
  operatingSystem : String
  startTime : Nat
  status : String
  containerName : String
  containerImage : Option String
  containerId : Option String := none
  endTime : Option Nat := none
  exitCode : Option Int := none
  success : Option Bool := none
  errorCount : Option Nat := none
  error : Option String := none
  deriving Repr, DecidableEq

/-- The request body fields `runTest` destructures; any of them may be
absent. -/
structure SubmitRequest where
  scriptId : Option String := none
  scriptContent : Option String := none
  scriptType : Option String := none
  operatingSystem : Option String := none
  customImage : Option String := none
  deriving Repr, DecidableEq

/-- Observable side effects of the synchronous part of `runTest`, in
program order: workspace directories, the script file, the persisted
metadata record, the started notification, and the background task. -/
inductive Effect where
  | ensureDir (segments : List String)
  | writeFile (segments : List String) (content : String)
  | chmod (segments : List String)
  | writeMetadata (id : String) (m : TestMetadata)
  | emitStarted (m : TestMetadata)
  | spawnBackground (id : String)
  deriving Repr, DecidableEq

/-- What the synchronous part of `runTest` hands back to the HTTP caller,
together with the side effects it performed. -/
structure SubmitResult where
  statusCode : Nat
  message : String
  record : Option TestMetadata
  effects : List Effect
  deriving Repr, DecidableEq

/-- The synchronous part of `runTest`: validation, workspace and script
materialization, creation and persistence of the initial metadata record,
and the immediate `202` response. `testId` stands for the generated UUID
and `now` for `new Date()` at submission. -/
def submitRun (testId : String) (now : Nat) (req : SubmitRequest) : SubmitResult :=
  match truthy req.scriptContent with
  | none =>
    { statusCode := 400, message := "Script content is required",
      record := none, effects := [] }
  | some scriptContent =>
    match truthy req.operatingSystem with
    | none =>
      { statusCode := 400, message := "Operating system is required",
        record := none, effects := [] }
    | some os =>
      let ext :=
        match truthy req.scriptType with
        | some t => t
        | none => if containsStr (lowerStr os) "windows" then "ps1" else "sh"
      let scriptFileName := "test-script." ++ ext
      let meta : TestMetadata :=
        { id := testId,
          scriptId := req.scriptId,
          operatingSystem := os,
          startTime := now,
          status := "running",
          containerName := "autotool-test-" ++ takeStr testId 8,
          containerImage := truthy req.customImage }
      { statusCode := 202,
        message := "Test started",
        record := some meta,
        effects := [
          Effect.ensureDir [testId],
          Effect.ensureDir [testId, "output"],
          Effect.writeFile [testId, scriptFileName] scriptContent,
          Effect.chmod [testId, scriptFileName],
          Effect.writeMetadata testId meta,
          Effect.emitStarted meta,
          Effect.spawnBackground testId ] }

/-- Oracle for the external container runtime as observed by one run: the
outcome of each dockerode call the background task awaits, the content of
the durable `output/script_output.log` if that file exists, and whether
container removal succeeds. -/
structure EnvOracle where
  createResult : Except String String
  startResult : Except String Unit
  attachResult : Except String (List String)
  waitResult : Except String Int
  logsResult : Except String String
  scriptLogFile : Option String
  removeOk : Bool
  deriving Repr

/-- Concatenation of the chunks delivered by the attached output stream
(`logs += chunk.toString('utf8')`). -/
def joinChunks (chunks : List String) : String :=
  chunks.foldl (fun acc c => acc ++ c) ""

/-- Final observable state of one background run: the last persisted
metadata record, and the classifier verdict when one was produced. -/
structure RunFinal where
  metadata : TestMetadata
  results : Option TestResults
  deriving Repr, DecidableEq

/-- The `try` body of the background `runTest` closure: resolve the image,
create and start the container, consume the attached stream, await the
exit code, fall back to `container.logs()` when the stream delivered
nothing, pick the classifier input (the durable log file whenever it
exists, else the stream text), classify, and build the `completed` record.
An error at any awaited step aborts with the error message and the
metadata as already mutated at that point. -/
def lifecycle (meta0 : TestMetadata) (endNow : Nat) (env : EnvOracle) :
    Except (String × TestMetadata) (TestMetadata × TestResults) :=
  let dockerImage := resolveImage meta0.operatingSystem meta0.containerImage
  let meta1 := { meta0 with containerImage := some dockerImage }
  match env.createResult with
  | .error e => .error (e, meta1)
  | .ok cid =>
    let meta2 := { meta1 with containerId := some cid }
    match env.startResult with
    | .error e => .error (e, meta2)
    | .ok _ =>
      match env.attachResult with
      | .error e => .error (e, meta2)
      | .ok chunks =>
        match env.waitResult with
        | .error e => .error (e, meta2)
        | .ok exitCode =>
          let logs := joinChunks chunks
          match (if logs = "" then env.logsResult else .ok logs) with
          | .error e => .error (e, meta2)
          | .ok logsFinal =>
            let scriptOutput :=
              match env.scriptLogFile with
              | some content => content
              | none => logsFinal
            let results := parseTestOutput scriptOutput.toList
            let meta3 :=
              { meta2 with
                status := "completed",
                endTime := some endNow,
                exitCode := some exitCode,
                success := some results.success,
                errorCount := some results.errorCount }
            .ok (meta3, results)

/-- The whole background `runTest` closure: the `try` body above plus its
`catch`, which turns any thrown error into a persisted `failed` record
carrying the error message and an end timestamp. The function is total:
nothing escapes to the submitter (`runTest().catch(console.error)`). -/
def runBackground (meta0 : TestMetadata) (endNow : Nat) (env : EnvOracle) : RunFinal :=
  match lifecycle meta0 endNow env with
  | .ok (m, r) => { metadata := m, results := some r }
  | .error (e, mlast) =>
    { metadata :=
        { mlast with status := "failed", endTime := some endNow, error := some e },
      results := none }

/-- The message of the first lifecycle step that fails under `env`, in the
order the code awaits them (`container.logs()` is consulted only when the
attached stream delivered nothing); `none` when the run completes. -/
def firstFailure (env : EnvOracle) : Option String :=
  match env.createResult with
  | .error e => some e
  | .ok _ =>
    match env.startResult with
    | .error e => some e
    | .ok _ =>
      match env.attachResult with
      | .error e => some e
      | .ok chunks =>
        match env.waitResult with
        | .error e => some e
        | .ok _ =>
          if joinChunks chunks = "" then
            match env.logsResult with
            | .error e => some e
            | .ok _ => none
          else none

/-- `listTests`: map each result directory to its `metadata.json` when that
file exists (`null` otherwise), drop the `null`s, and sort newest first by
`startTime`. `mergeSort` models Node's stable `Array.prototype.sort`; the
comparator `(a, b) => Date(b.startTime) - Date(a.startTime)` puts `a` no
later than `b` exactly when `b.startTime ≤ a.startTime`. -/
def listTests (entries : List (String × Option TestMetadata)) : List TestMetadata :=
  (entries.filterMap (fun p => p.2)).mergeSort
    (fun a b => decide (b.startTime ≤ a.startTime))

/-- Is `p` the directory `dir` itself or a path below it? -/
def underDir (dir : List String) (p : List String) : Bool := leadsWith dir p

/-- Outcome of one workspace-teardown call: whether an exception reached
the caller, whether an underlying removal failure was logged, and the
filesystem afterwards (a filesystem is the list of existing paths, each a
list of segments). -/
structure TeardownResult where
  errorRaised : Bool
  failureLogged : Bool
  fs : List (List String)
  deriving Repr, DecidableEq

/-- Modelled from the spec: the repository source contains no workspace
teardown routine (only best-effort container removal), so `teardown` is
taken from §4.2: remove the workspace directory and everything under it
recursively; when nothing is present the call trivially succeeds; an
underlying removal failure (`rmFails`) is logged, never raised to the
caller. -/
def teardown (rmFails : Bool) (fs : List (List String)) (dir : List String) :
    TeardownResult :=
  if fs.any (fun p => underDir dir p) then
    if rmFails then { errorRaised := false, failureLogged := true, fs := fs }
    else
      { errorRaised := false, failureLogged := false,
        fs := fs.filter (fun p => !(underDir dir p)) }
  else { errorRaised := false, failureLogged := false, fs := fs }

end AutoTool

namespace AutoTool

theorem matchMarkerAt_nil : matchMarkerAt [] = none := by decide

theorem findMarker_eq_none_iff (s : List Char) :
    findMarker s = none ↔ ∀ i, matchMarkerAt (s.drop i) = none := by
  induction s with
  | nil =>
    simp [findMarker, List.drop_nil, matchMarkerAt_nil]
  | cons c cs ih =>
    cases h : matchMarkerAt (c :: cs) with
    | some n =>
      simp only [findMarker, h]
      constructor
      · intro habs; exact absurd habs (by simp)
      · intro hall
        have h0 := hall 0
        simp [h] at h0
    | none =>
      simp only [findMarker, h]
      rw [ih]
      constructor
      · intro hall i
        cases i with
        | zero => simpa using h
        | succ j => simpa using hall j
      · intro hall i
        simpa using hall (i + 1)

theorem findMarker_eq_some_iff (s : List Char) (n : Nat) :
    findMarker s = some n ↔
      ∃ i, matchMarkerAt (s.drop i) = some n ∧
        ∀ j, j < i → matchMarkerAt (s.drop j) = none := by
  induction s with
  | nil =>
    simp only [findMarker]
    constructor
    · intro habs; exact absurd habs (by simp)
    · rintro ⟨i, hi, -⟩
      rw [List.drop_nil] at hi
      rw [matchMarkerAt_nil] at hi
      exact absurd hi (by simp)
  | cons c cs ih =>
    cases h : matchMarkerAt (c :: cs) with
    | some m =>
      simp only [findMarker, h]
      constructor
      · intro hm
        exact ⟨0, by simpa using hm ▸ h, by intro j hj; omega⟩
      · rintro ⟨i, hi, hfirst⟩
        cases i with
        | zero => simp only [List.drop_zero] at hi; rw [h] at hi; exact hi
        | succ k =>
          have h0 := hfirst 0 (by omega)
          simp only [List.drop_zero] at h0
          rw [h] at h0
          exact absurd h0 (by simp)
    | none =>
      simp only [findMarker, h]
      rw [ih]
      constructor
      · rintro ⟨i, hi, hfirst⟩
        refine ⟨i + 1, by simpa using hi, ?_⟩
        intro j hj
        cases j with
        | zero => simpa using h
        | succ k => simpa using hfirst k (by omega)
      · rintro ⟨i, hi, hfirst⟩
        cases i with
        | zero => simp only [List.drop_zero] at hi; rw [h] at hi; exact absurd hi (by simp)
        | succ k =>
          refine ⟨k, by simpa using hi, ?_⟩
          intro j hj
          simpa using hfirst (j + 1) (by omega)

theorem parseTestOutput_exitCode (s : List Char) :
    (parseTestOutput s).exitCode = findMarker s := rfl

theorem parseTestOutput_errors (s : List Char) :
    (parseTestOutput s).errors = (splitLines s).filter lineMatches := rfl

end AutoTool

namespace AutoTool

/-- Claim C2: for every input text, the classifier returns the exit code of the
case-insensitive marker `=== Exit code: N ===` (`none` exactly when no position
of the text matches the marker pattern, and the first-matching position's value
otherwise); returns as `errors` exactly the lines that case-insensitively
contain one of the tokens error/exception/failed/fatal/warning/denied, verbatim
and in original order, with `errorCount` their number; reports success exactly
when the exit code is `0` and no line matched; and in particular any input
containing a line with the word "warning" classifies as unsuccessful, whatever
its exit code. -/
theorem c2_classifier_spec (s : List Char) :
    ((parseTestOutput s).exitCode = none ↔ ∀ i, matchMarkerAt (s.drop i) = none) ∧
    (∀ n, (parseTestOutput s).exitCode = some n ↔
      ∃ i, matchMarkerAt (s.drop i) = some n ∧
        ∀ j, j < i → matchMarkerAt (s.drop j) = none) ∧
    (parseTestOutput s).errors = (splitLines s).filter lineMatches ∧
    (parseTestOutput s).errorCount = ((splitLines s).filter lineMatches).length ∧
    ((parseTestOutput s).success = true ↔
      (parseTestOutput s).exitCode = some 0 ∧ (parseTestOutput s).errors = []) ∧
    (∀ line, line ∈ splitLines s →
      hasInfix ("warning".toList) (line.map Char.toLower) = true →
      (parseTestOutput s).success = false) := by
  refine ⟨?_, ?_, rfl, rfl, ?_, ?_⟩
  · rw [parseTestOutput_exitCode]; exact findMarker_eq_none_iff s
  · intro n; rw [parseTestOutput_exitCode]; exact findMarker_eq_some_iff s n
  · show ((findMarker s == some 0) && ((splitLines s).filter lineMatches).isEmpty) = true ↔ _
    rw [Bool.and_eq_true, beq_iff_eq, List.isEmpty_iff]
    exact Iff.rfl
  · intro line hmem hwarn
    have hlm : lineMatches line = true := by
      simp only [lineMatches, errorTokens, List.any_eq_true, List.mem_cons]
      exact ⟨"warning".toList, by simp, hwarn⟩
    have hne : (splitLines s).filter lineMatches ≠ [] :=
      List.ne_nil_of_mem (List.mem_filter.mpr ⟨hmem, hlm⟩)
    show ((findMarker s == some 0) && ((splitLines s).filter lineMatches).isEmpty) = false
    have : ((splitLines s).filter lineMatches).isEmpty = false := by
      rw [List.isEmpty_eq_false]
      exact hne
    simp [this]

/-- Claim C2 witness: a text whose marker reads exit code 0 but which contains
a "Warning:" line classifies as `success = false`. -/
theorem c2_classifier_spec_witness :
    (parseTestOutput (("=== Exit code: 0 ===\nWarning: deprecated flag").toList)).success
      = false :=
  (c2_classifier_spec _).2.2.2.2.2 (("Warning: deprecated flag").toList)
    (by decide) (by decide)

/-- Claim C10: the exit-code extraction matches the marker pattern anywhere in
the captured text and uses the earliest occurrence: if position `i` matches the
marker with value `n` and no earlier position matches, the classifier reports
exit code `n`. -/
theorem c10_first_marker_wins (s : List Char) (i : Nat) (n : Nat)
    (hmatch : matchMarkerAt (s.drop i) = some n)
    (hfirst : ∀ j, j < i → matchMarkerAt (s.drop j) = none) :
    (parseTestOutput s).exitCode = some n := by
  rw [parseTestOutput_exitCode]
  exact (findMarker_eq_some_iff s n).mpr ⟨i, hmatch, hfirst⟩

/-- Claim C10 witness: a marker printed mid-line by the script itself
(`out === Exit code: 3 === more`) wins over the entrypoint wrapper's later
`=== Exit code: 0 ===` marker. -/
theorem c10_first_marker_wins_witness :
    (parseTestOutput (("out === Exit code: 3 === more\n=== Exit code: 0 ===").toList)).exitCode
      = some 3 :=
  c10_first_marker_wins _ 4 3 (by decide) (by decide)

end AutoTool

namespace AutoTool

/-- A valid submission: non-empty script content and OS identifier. -/
def c1Request : SubmitRequest :=
  { scriptContent := some "echo hi", operatingSystem := some "ubuntu-22.04" }

/-- Claim C1 counterexample: at a valid submission the record created,
persisted and returned by `submitRun` has status `running`, not `pending` as
the claim states. -/
theorem c1_counterexample :
    ((submitRun "run-1" 0 c1Request).record.map TestMetadata.status) = some "running" ∧
    ("running" : String) ≠ "pending" := by
  exact ⟨rfl, by decide⟩

/-- Claim C1 (amended): for every valid submission (truthy script content and
operating-system identifier), `submitRun` creates an initial run record whose
status is `running`, persists it immediately (a `writeMetadata` effect for
exactly that record), and returns it to the caller with HTTP 202. -/
theorem c1_submit_initial_record (testId : String) (now : Nat) (req : SubmitRequest)
    (sc : String) (os : String)
    (hsc : truthy req.scriptContent = some sc)
    (hos : truthy req.operatingSystem = some os) :
    ∃ m : TestMetadata,
      (submitRun testId now req).record = some m ∧
      m.status = "running" ∧
      m.id = testId ∧
      m.startTime = now ∧
      Effect.writeMetadata testId m ∈ (submitRun testId now req).effects ∧
      (submitRun testId now req).statusCode = 202 := by
  simp only [submitRun, hsc, hos]
  refine ⟨_, rfl, ?_, ?_, ?_, ?_, ?_⟩ <;> simp

/-- Claim C1 witness: the amended statement at a concrete valid submission. -/
theorem c1_submit_initial_record_witness :
    ∃ m : TestMetadata,
      (submitRun "run-1" 0 c1Request).record = some m ∧
      m.status = "running" ∧
      m.id = "run-1" ∧
      m.startTime = 0 ∧
      Effect.writeMetadata "run-1" m ∈ (submitRun "run-1" 0 c1Request).effects ∧
      (submitRun "run-1" 0 c1Request).statusCode = 202 :=
  c1_submit_initial_record "run-1" 0 c1Request "echo hi" "ubuntu-22.04" rfl rfl

/-- Claim C6: a submission with missing/empty script content, or with missing/
empty operating-system identifier, is rejected synchronously with HTTP 400 and
the matching validation message, and produces no run record and no side effects
(no workspace directory, no script file, no metadata write, no background
task). -/
theorem c6_validation_rejects (testId : String) (now : Nat) (req : SubmitRequest) :
    (truthy req.scriptContent = none →
      submitRun testId now req =
        { statusCode := 400, message := "Script content is required",
          record := none, effects := [] }) ∧
    (∀ sc, truthy req.scriptContent = some sc → truthy req.operatingSystem = none →
      submitRun testId now req =
        { statusCode := 400, message := "Operating system is required",
          record := none, effects := [] }) := by
  constructor
  · intro h; simp [submitRun, h]
  · intro sc h1 h2; simp [submitRun, h1, h2]

/-- Claim C6 witness: both validation branches at concrete requests. -/
theorem c6_validation_rejects_witness :
    submitRun "run-6" 0 { operatingSystem := some "ubuntu-22.04" } =
      { statusCode := 400, message := "Script content is required",
        record := none, effects := [] } ∧
    submitRun "run-6" 0 { scriptContent := some "echo hi", operatingSystem := some "" } =
      { statusCode := 400, message := "Operating system is required",
        record := none, effects := [] } :=
  ⟨(c6_validation_rejects "run-6" 0 _).1 rfl,
   (c6_validation_rejects "run-6" 0 _).2 "echo hi" rfl rfl⟩

/-- Claim C7: `resolve("ubuntu-22.04", null)` is the exact pinned Ubuntu 22.04
image from the static table; `resolve("ubuntu-99.99", null)` has no exact table
entry and resolves through the ubuntu family fallback to `ubuntu:22.04`;
`resolve("solaris-11", null)` resolves to the global default image; and any
non-empty explicit override is returned unchanged for every OS identifier. -/
theorem c7_resolver_examples :
    resolveImage "ubuntu-22.04" none = "ubuntu:22.04" ∧
    osMap (lowerStr "ubuntu-22.04") = some "ubuntu:22.04" ∧
    resolveImage "ubuntu-99.99" none = "ubuntu:22.04" ∧
    osMap (lowerStr "ubuntu-99.99") = none ∧
    containsStr (lowerStr "ubuntu-99.99") "ubuntu" = true ∧
    resolveImage "solaris-11" none = "ubuntu:22.04" ∧
    (∀ os img, img ≠ "" → resolveImage os (some img) = img) := by
  refine ⟨by decide, by decide, by decide, by decide, by decide, by decide, ?_⟩
  intro os img h
  simp [resolveImage, truthy, h]

/-- Claim C7 witness: the override clause at a concrete identifier and
override. -/
theorem c7_resolver_examples_witness :
    resolveImage "anything" (some "custom/image:tag") = "custom/image:tag" :=
  c7_resolver_examples.2.2.2.2.2.2 "anything" "custom/image:tag" (by decide)

/-- Claim C4 counterexample: `rhel-99` has no exact table entry and contains
the family name rhel, yet resolution returns the rhel-8 image
(`.../ubi8/ubi`), not the image of the newest table release rhel-9
(`.../ubi9/ubi`) that the claim demands. -/
theorem c4_counterexample :
    resolveImage "rhel-99" none = "registry.access.redhat.com/ubi8/ubi" ∧
    osMap (lowerStr "rhel-99") = none ∧
    containsStr (lowerStr "rhel-99") "rhel" = true ∧
    ("registry.access.redhat.com/ubi8/ubi" : String) ≠
      "registry.access.redhat.com/ubi9/ubi" ∧
    osMap "rhel-9" = some "registry.access.redhat.com/ubi9/ubi" := by
  exact ⟨by decide, by decide, by decide, by decide, by decide⟩

/-- Claim C4 (amended): for an identifier with no exact table match, family
fallback checks windows, ubuntu, centos, debian, rhel in that order and
returns the hard-coded family default: the newest table release's image for
windows (ltsc2022), ubuntu (22.04), centos (stream8) and debian (11), but for
rhel the rhel-8 image `registry.access.redhat.com/ubi8/ubi`; identifiers
containing no family name resolve to the global default `ubuntu:22.04`. -/
theorem c4_family_fallback (os : String)
    (hexact : osMap (lowerStr os) = none) :
    (containsStr (lowerStr os) "windows" = true →
      resolveImage os none = "mcr.microsoft.com/windows/servercore:ltsc2022") ∧
    (containsStr (lowerStr os) "windows" = false →
      containsStr (lowerStr os) "ubuntu" = true →
      resolveImage os none = "ubuntu:22.04") ∧
    (containsStr (lowerStr os) "windows" = false →
      containsStr (lowerStr os) "ubuntu" = false →
      containsStr (lowerStr os) "centos" = true →
      resolveImage os none = "quay.io/centos/centos:stream8") ∧
    (containsStr (lowerStr os) "windows" = false →
      containsStr (lowerStr os) "ubuntu" = false →
      containsStr (lowerStr os) "centos" = false →
      containsStr (lowerStr os) "debian" = true →
      resolveImage os none = "debian:11") ∧
    (containsStr (lowerStr os) "windows" = false →
      containsStr (lowerStr os) "ubuntu" = false →
      containsStr (lowerStr os) "centos" = false →
      containsStr (lowerStr os) "debian" = false →
      containsStr (lowerStr os) "rhel" = true →
      resolveImage os none = "registry.access.redhat.com/ubi8/ubi") ∧
    (containsStr (lowerStr os) "windows" = false →
      containsStr (lowerStr os) "ubuntu" = false →
      containsStr (lowerStr os) "centos" = false →
      containsStr (lowerStr os) "debian" = false →
      containsStr (lowerStr os) "rhel" = false →
      resolveImage os none = "ubuntu:22.04") := by
  refine ⟨?_, ?_, ?_, ?_, ?_, ?_⟩ <;>
    intros <;> simp [resolveImage, truthy, hexact, *]

/-- Claim C4 witness: the rhel clause of the amended statement at
`rhel-99`. -/
theorem c4_family_fallback_witness :
    resolveImage "rhel-99" none = "registry.access.redhat.com/ubi8/ubi" :=
  (c4_family_fallback "rhel-99" (by decide)).2.2.2.2.1
    (by decide) (by decide) (by decide) (by decide) (by decide)

end AutoTool

namespace AutoTool

/-- Initial metadata of a run already submitted, before its background task
starts: no container yet. -/
def c3Meta : TestMetadata :=
  { id := "run-3", scriptId := none, operatingSystem := "ubuntu-22.04",
    startTime := 0, status := "running",
    containerName := "autotool-test-run-3", containerImage := none }

/-- Runtime behavior where the attached stream delivers an error line but
the durable log file exists empty. -/
def c3Env : EnvOracle :=
  { createResult := .ok "cid-3", startResult := .ok (),
    attachResult := .ok ["Error: disk full"], waitResult := .ok 0,
    logsResult := .ok "", scriptLogFile := some "", removeOk := true }

/-- Claim C3 counterexample: when the durable log file exists but is empty
while the stream accumulated `Error: disk full`, the code classifies the empty
file content — the classifier input is `""` (zero error lines), not the stream
text (which would classify with one error line). -/
theorem c3_counterexample :
    ((runBackground c3Meta 9 c3Env).results.map TestResults.fullOutput) = some [] ∧
    some ([] : List Char) ≠ some (("Error: disk full").toList) ∧
    ((runBackground c3Meta 9 c3Env).results.map TestResults.errorCount) = some 0 ∧
    (parseTestOutput (("Error: disk full").toList)).errorCount = 1 := by
  exact ⟨rfl, by decide, rfl, by decide⟩

theorem parseTestOutput_fullOutput (s : List Char) :
    (parseTestOutput s).fullOutput = s := rfl

/-- Claim C3 (amended): at the awaiting-exit→classifying transition the
classifier input is the content of the durable `output/script_output.log`
whenever that file exists — even when it is empty — and otherwise the text
accumulated from the attached stream (itself replaced by the separately
fetched container logs when the stream yielded nothing). -/
theorem c3_classifier_input (meta0 : TestMetadata) (endNow : Nat) (env : EnvOracle)
    (hok : firstFailure env = none) :
    (∀ content, env.scriptLogFile = some content →
      ((runBackground meta0 endNow env).results.map TestResults.fullOutput)
        = some content.toList) ∧
    (∀ chunks, env.scriptLogFile = none → env.attachResult = .ok chunks →
      joinChunks chunks ≠ "" →
      ((runBackground meta0 endNow env).results.map TestResults.fullOutput)
        = some (joinChunks chunks).toList) ∧
    (∀ chunks logsText, env.scriptLogFile = none → env.attachResult = .ok chunks →
      joinChunks chunks = "" → env.logsResult = .ok logsText →
      ((runBackground meta0 endNow env).results.map TestResults.fullOutput)
        = some logsText.toList) := by
  cases hc : env.createResult with
  | error e => simp [firstFailure, hc] at hok
  | ok cid =>
  cases hs : env.startResult with
  | error e => simp [firstFailure, hc, hs] at hok
  | ok u =>
  cases ha : env.attachResult with
  | error e => simp [firstFailure, hc, hs, ha] at hok
  | ok chunks =>
  cases hw : env.waitResult with
  | error e => simp [firstFailure, hc, hs, ha, hw] at hok
  | ok code =>
  by_cases hempty : joinChunks chunks = ""
  · cases hl : env.logsResult with
    | error e => simp [firstFailure, hc, hs, ha, hw, hempty, hl] at hok
    | ok logsText =>
      refine ⟨?_, ?_, ?_⟩
      · intro content hfile
        simp [runBackground, lifecycle, parseTestOutput_fullOutput,
          hc, hs, ha, hw, hempty, hl, hfile]
      · intro chunks2 hfile ha2 hne
        injection ha2 with hch
        subst hch
        exact absurd hempty hne
      · intro chunks2 logsText2 hfile ha2 hempty2 hl2
        injection ha2 with hch
        subst hch
        injection hl2 with hlt
        subst hlt
        simp [runBackground, lifecycle, parseTestOutput_fullOutput,
          hc, hs, ha, hw, hempty, hl, hfile]
  · refine ⟨?_, ?_, ?_⟩
    · intro content hfile
      simp [runBackground, lifecycle, parseTestOutput_fullOutput,
        hc, hs, ha, hw, hempty, hfile]
    · intro chunks2 hfile ha2 hne
      injection ha2 with hch
      subst hch
      simp [runBackground, lifecycle, parseTestOutput_fullOutput,
        hc, hs, ha, hw, hempty, hfile]
    · intro chunks2 logsText2 hfile ha2 hempty2 hl2
      injection ha2 with hch
      subst hch
      exact absurd hempty2 hempty

/-- Runtime behavior where the durable log file exists with content. -/
def c3GoodEnv : EnvOracle :=
  { createResult := .ok "cid-3g", startResult := .ok (),
    attachResult := .ok ["hello"], waitResult := .ok 0,
    logsResult := .ok "", scriptLogFile := some "from file", removeOk := true }

/-- Claim C3 witness: the file branch of the amended statement at a concrete
environment whose durable log file holds "from file". -/
theorem c3_classifier_input_witness :
    ((runBackground c3Meta 9 c3GoodEnv).results.map TestResults.fullOutput)
      = some (("from file").toList) :=
  (c3_classifier_input c3Meta 9 c3GoodEnv rfl).1 "from file" rfl

end AutoTool

namespace AutoTool

/-- Claim C5: once the run record exists, an exception at any awaited step of
the asynchronous lifecycle is caught at the orchestrator boundary (the model
function is total — nothing is re-thrown to the submitter) and yields a
terminal record with status `failed`, failure reason equal to the error's
message, and an end timestamp, with no classifier result; and when environment
creation itself failed the record carries no container handle. -/
theorem c5_failure_handling (meta0 : TestMetadata) (endNow : Nat)
    (env : EnvOracle) (e : String)
    (hfail : firstFailure env = some e)
    (hcid : meta0.containerId = none) :
    ((runBackground meta0 endNow env).metadata.status = "failed" ∧
     (runBackground meta0 endNow env).metadata.error = some e ∧
     (runBackground meta0 endNow env).metadata.endTime = some endNow ∧
     (runBackground meta0 endNow env).results = none) ∧
    (∀ e2, env.createResult = .error e2 →
      (runBackground meta0 endNow env).metadata.containerId = none) := by
  cases hc : env.createResult with
  | error ec =>
    simp only [firstFailure, hc] at hfail
    injection hfail with he
    subst he
    refine ⟨?_, ?_⟩
    · simp [runBackground, lifecycle, hc]
    · intro e2 h2
      simp [runBackground, lifecycle, hc, hcid]
  | ok cid =>
    have hnotcreate : ∀ e2 : String, (Except.ok cid : Except String String) = .error e2 →
        (runBackground meta0 endNow env).metadata.containerId = none :=
      fun e2 h2 => Except.noConfusion h2
    cases hs : env.startResult with
    | error es =>
      simp only [firstFailure, hc, hs] at hfail
      injection hfail with he
      subst he
      exact ⟨by simp [runBackground, lifecycle, hc, hs], hnotcreate⟩
    | ok u =>
      cases ha : env.attachResult with
      | error ea =>
        simp only [firstFailure, hc, hs, ha] at hfail
        injection hfail with he
        subst he
        exact ⟨by simp [runBackground, lifecycle, hc, hs, ha], hnotcreate⟩
      | ok chunks =>
        cases hw : env.waitResult with
        | error ew =>
          simp only [firstFailure, hc, hs, ha, hw] at hfail
          injection hfail with he
          subst he
          exact ⟨by simp [runBackground, lifecycle, hc, hs, ha, hw], hnotcreate⟩
        | ok code =>
          by_cases hempty : joinChunks chunks = ""
          · cases hl : env.logsResult with
            | error el =>
              simp only [firstFailure, hc, hs, ha, hw, hempty, hl, if_pos] at hfail
              injection hfail with he
              subst he
              exact ⟨by simp [runBackground, lifecycle, hc, hs, ha, hw, hempty, hl],
                     hnotcreate⟩
            | ok logsText =>
              simp [firstFailure, hc, hs, ha, hw, hempty, hl] at hfail
          · simp [firstFailure, hc, hs, ha, hw, hempty] at hfail

/-- Initial metadata of a submitted run used to exercise the failure path. -/
def c5Meta : TestMetadata :=
  { id := "run-5", scriptId := none, operatingSystem := "ubuntu-22.04",
    startTime := 0, status := "running",
    containerName := "autotool-test-run-5", containerImage := none }

/-- Environment creation failure. -/
def c5Env : EnvOracle :=
  { createResult := .error "no such image", startResult := .ok (),
    attachResult := .ok [], waitResult := .ok 0,
    logsResult := .ok "", scriptLogFile := none, removeOk := true }

/-- Claim C5 witness: the statement at a concrete environment whose creation
fails with "no such image". -/
theorem c5_failure_handling_witness :
    ((runBackground c5Meta 7 c5Env).metadata.status = "failed" ∧
     (runBackground c5Meta 7 c5Env).metadata.error = some "no such image" ∧
     (runBackground c5Meta 7 c5Env).metadata.endTime = some 7 ∧
     (runBackground c5Meta 7 c5Env).results = none) ∧
    (∀ e2, c5Env.createResult = .error e2 →
      (runBackground c5Meta 7 c5Env).metadata.containerId = none) :=
  c5_failure_handling c5Meta 7 c5Env "no such image" rfl rfl

end AutoTool

namespace AutoTool

/-- Claim C8: `listTests` returns exactly the run records whose metadata file
exists (entries with absent metadata are omitted), as a permutation of the
stored records sorted newest first, i.e. pairwise descending in start
timestamp. -/
theorem c8_list_newest_first (entries : List (String × Option TestMetadata)) :
    List.Perm (listTests entries) (entries.filterMap (fun p => p.2)) ∧
    List.Pairwise (fun a b => b.startTime ≤ a.startTime) (listTests entries) ∧
    (∀ m, m ∈ listTests entries ↔ ∃ d, (d, some m) ∈ entries) := by
  refine ⟨List.mergeSort_perm _ _, ?_, ?_⟩
  · have h := @List.sorted_mergeSort TestMetadata
      (fun a b => decide (b.startTime ≤ a.startTime))
      (fun (a b c : TestMetadata) h1 h2 =>
        decide_eq_true (Nat.le_trans (of_decide_eq_true h2) (of_decide_eq_true h1)))
      (fun (a b : TestMetadata) => by
        rcases Nat.le_total b.startTime a.startTime with h | h <;> simp [h])
      (entries.filterMap (fun p => p.2))
    exact h.imp (fun hab => of_decide_eq_true hab)
  · intro m
    rw [show listTests entries =
        (entries.filterMap (fun p => p.2)).mergeSort
          (fun a b => decide (b.startTime ≤ a.startTime)) from rfl]
    rw [List.mem_mergeSort, List.mem_filterMap]
    constructor
    · rintro ⟨⟨d, o⟩, hmem, ho⟩
      cases ho
      exact ⟨d, hmem⟩
    · rintro ⟨d, hmem⟩
      exact ⟨(d, some m), hmem, rfl⟩

/-- Claim C9 (modelled from the spec, no workspace teardown exists in the
source): teardown is idempotent — after a first call removed the workspace, a
second call on the same path raises no error, logs no failure and leaves the
filesystem unchanged — and no teardown call ever raises an error toward its
caller, so cleanup failures cannot affect the run's outcome. -/
theorem c9_teardown_idempotent (fs : List (List String)) (dir : List String)
    (rm2 : Bool) :
    (teardown rm2 (teardown false fs dir).fs dir).errorRaised = false ∧
    (teardown rm2 (teardown false fs dir).fs dir).failureLogged = false ∧
    (teardown rm2 (teardown false fs dir).fs dir).fs = (teardown false fs dir).fs ∧
    (∀ b fs2, (teardown b fs2 dir).errorRaised = false) := by
  have hgone : ∀ l : List (List String),
      (l.filter (fun p => !(underDir dir p))).any (fun p => underDir dir p) = false := by
    intro l
    rw [List.any_eq_false]
    intro p hp
    have h := List.of_mem_filter hp
    simp only [Bool.not_eq_true'] at h
    simp [h]
  have hnoerr : ∀ b fs2, (teardown b fs2 dir).errorRaised = false := by
    intro b fs2
    unfold teardown
    split
    · split <;> rfl
    · rfl
  cases h1 : fs.any (fun p => underDir dir p) with
  | false =>
    have hfirst : teardown false fs dir =
        { errorRaised := false, failureLogged := false, fs := fs } := by
      unfold teardown
      rw [h1]
      simp
    have hsecond : teardown rm2 fs dir =
        { errorRaised := false, failureLogged := false, fs := fs } := by
      unfold teardown
      rw [h1]
      simp
    refine ⟨?_, ?_, ?_, hnoerr⟩ <;> rw [hfirst] <;> simp [hsecond]
  | true =>
    have hfirst : teardown false fs dir =
        { errorRaised := false, failureLogged := false,
          fs := fs.filter (fun p => !(underDir dir p)) } := by
      unfold teardown
      rw [h1]
      simp
    have hsecond : teardown rm2 (fs.filter (fun p => !(underDir dir p))) dir =
        { errorRaised := false, failureLogged := false,
          fs := fs.filter (fun p => !(underDir dir p)) } := by
      unfold teardown
      rw [hgone fs]
      simp
    refine ⟨?_, ?_, ?_, hnoerr⟩ <;> rw [hfirst] <;> simp [hsecond]

end AutoTool
